import Mathlib

/-!
# Verification of the Cricket Auction Simulator core engine

A shallow embedding of the auction engine of the repository
(domain types in `src/domain/types.ts`, validators in
`src/domain/squadValidator.ts`, auction rules in `src/domain/auctionRules.ts`,
the reducer in `src/hooks/useAuction.ts`, and the recommendation engine in
`src/domain/bidCalculator.ts`), together with proofs of the spec's claims
about it.

Numbers (`number` in the source) are modelled as `ℚ`; every arithmetic
operation used by the engine (+, -, *, min, max, comparisons, `Math.round`)
is exact on the rationals.  List-valued data keeps its order.  Human-readable
message strings are transcribed in abbreviated form (no theorem below depends
on the text of a message, only on structured fields such as error codes).
-/

/-! ## Domain types (`src/domain/types.ts`) -/

/-- Player roles in T20 cricket (`PlayerRole`). -/
inductive PlayerRole where
  | batter
  | bowler
  | allRounder
  | wicketKeeper
deriving DecidableEq, Repr

/-- Player nationality (`PlayerNationality`). -/
inductive PlayerNationality where
  | domestic
  | overseas
deriving DecidableEq, Repr

/-- Player performance statistics (`PlayerStats`).  Nullable fields are
`Option`s; matches played is a natural number.  The source field `matches`
is a Lean keyword, so it is spelled `matchesPlayed` here. -/
structure PlayerStats where
  matchesPlayed : Nat
  battingAverage : Option ℚ
  bowlingAverage : Option ℚ
  strikeRate : Option ℚ
  economyRate : Option ℚ
deriving DecidableEq, Repr

/-- Immutable catalog entry for a player (`Player`). -/
structure Player where
  id : String
  name : String
  role : PlayerRole
  nationality : PlayerNationality
  basePrice : ℚ
  stats : PlayerStats
deriving DecidableEq, Repr

/-- Static team record loaded at startup (`Team`). -/
structure Team where
  id : String
  name : String
  shortName : String
  budget : ℚ
  primaryColor : String
deriving DecidableEq, Repr

/-- A player purchased by a team (`AcquiredPlayer`). -/
structure AcquiredPlayer where
  playerId : String
  purchasePrice : ℚ
deriving DecidableEq, Repr

/-- A team's mutable per-auction state (`TeamState`). -/
structure TeamState where
  teamId : String
  remainingBudget : ℚ
  squad : List AcquiredPlayer
deriving DecidableEq, Repr

/-- Current bid during active bidding (`CurrentBid`). -/
structure CurrentBid where
  teamId : String
  amount : ℚ
deriving DecidableEq, Repr

/-- Per-role minimum and maximum (one entry of `RoleConstraints`). -/
structure RoleMinMax where
  min : Nat
  max : Nat
deriving DecidableEq, Repr

/-- Squad composition rules (`SquadConstraints`); `roleConstraints` is the
per-role min/max table. -/
structure SquadConstraints where
  minSquadSize : Nat
  maxSquadSize : Nat
  maxOverseasPlayers : Nat
  roleConstraints : PlayerRole → RoleMinMax

/-- `DEFAULT_SQUAD_CONSTRAINTS` from `types.ts`. -/
def DEFAULT_SQUAD_CONSTRAINTS : SquadConstraints :=
  ⟨15, 25, 8, fun role =>
    match role with
    | .batter => ⟨3, 8⟩
    | .bowler => ⟨3, 8⟩
    | .allRounder => ⟨2, 6⟩
    | .wicketKeeper => ⟨1, 3⟩⟩

/-- `AUCTION_CONSTANTS.INITIAL_BID_TIME`. -/
def INITIAL_BID_TIME : ℚ := 60

/-- `AUCTION_CONSTANTS.BID_INCREMENT_MIN`. -/
def BID_INCREMENT_MIN : ℚ := 5

/-- `AUCTION_CONSTANTS.TIME_EXTENSION_ON_BID`. -/
def TIME_EXTENSION_ON_BID : ℚ := 15

/-- `AUCTION_CONSTANTS.MAX_TIME_EXTENSION`. -/
def MAX_TIME_EXTENSION : ℚ := 60

/-! ## Validation result types (`src/domain/types.ts`) -/

/-- Machine-readable validation error codes (`ValidationErrorCode`). -/
inductive ValidationErrorCode where
  | INSUFFICIENT_BUDGET
  | SQUAD_FULL
  | ROLE_LIMIT_EXCEEDED
  | OVERSEAS_LIMIT_EXCEEDED
  | BID_TOO_LOW
  | NOT_YOUR_TURN
  | AUCTION_NOT_ACTIVE
deriving DecidableEq, Repr

/-- A single validation error (`ValidationError`).  The source's optional
`context` record duplicates numbers already present in the message; it is
not modelled (no claim refers to it). -/
structure ValidationError where
  code : ValidationErrorCode
  message : String
deriving DecidableEq, Repr

/-- Result of a validation check (`ValidationResult`): either valid, or
invalid with a non-empty error list. -/
inductive ValidationResult where
  | valid
  | invalid (errors : List ValidationError)
deriving DecidableEq, Repr

/-- The `isValid` discriminant of a `ValidationResult`. -/
def ValidationResult.isValid : ValidationResult → Bool
  | .valid => true
  | .invalid _ => false

/-- The `errors` carried by a `ValidationResult` (`[]` when valid, matching
the source's push-only-when-invalid accumulation). -/
def ValidationResult.errors : ValidationResult → List ValidationError
  | .valid => []
  | .invalid es => es

/-! ## Constraint primitives (`src/domain/squadValidator.ts`) -/

/-- Lookup in the JS `Map` built from `allPlayers.map(p => [p.id, p])`:
when two catalog entries share an id, the later entry overwrites the
earlier one, so the lookup returns the last match. -/
def lookupPlayer (allPlayers : List Player) (playerId : String) : Option Player :=
  allPlayers.reverse.find? (fun p => p.id == playerId)

/-- `countPlayersByRole`: number of squad members whose resolved catalog
entry has the given role (squad entries missing from the catalog are not
counted, as in the source's `if (player)` guard). -/
def countPlayersByRole (squad : List AcquiredPlayer) (allPlayers : List Player)
    (role : PlayerRole) : Nat :=
  (squad.filter (fun acquired =>
    match lookupPlayer allPlayers acquired.playerId with
    | some p => p.role == role
    | none => false)).length

/-- `countOverseasPlayers`: number of squad members whose resolved catalog
entry is overseas. -/
def countOverseasPlayers (squad : List AcquiredPlayer)
    (allPlayers : List Player) : Nat :=
  (squad.filter (fun acquired =>
    match lookupPlayer allPlayers acquired.playerId with
    | some p => p.nationality == .overseas
    | none => false)).length

/-- `validateBudget`: the bid must not exceed the team's remaining budget. -/
def validateBudget (teamState : TeamState) (bidAmount : ℚ) : ValidationResult :=
  if bidAmount > teamState.remainingBudget then
    .invalid [⟨.INSUFFICIENT_BUDGET,
      "Insufficient budget. Required: " ++ toString bidAmount ++
        "L, Available: " ++ toString teamState.remainingBudget ++ "L"⟩]
  else
    .valid

/-- `validateSquadSize`: the squad must be strictly below the maximum size. -/
def validateSquadSize (teamState : TeamState)
    (constraints : SquadConstraints) : ValidationResult :=
  if teamState.squad.length ≥ constraints.maxSquadSize then
    .invalid [⟨.SQUAD_FULL,
      "Squad is full. Maximum " ++ toString constraints.maxSquadSize ++
        " players allowed."⟩]
  else
    .valid

/-- `validateRoleLimits`: the count of already-acquired players sharing the
new player's role must be strictly below that role's configured max. -/
def validateRoleLimits (teamState : TeamState) (newPlayer : Player)
    (allPlayers : List Player) (constraints : SquadConstraints) : ValidationResult :=
  let currentCount := countPlayersByRole teamState.squad allPlayers newPlayer.role
  let maxForRole := (constraints.roleConstraints newPlayer.role).max
  if currentCount ≥ maxForRole then
    .invalid [⟨.ROLE_LIMIT_EXCEEDED,
      "Cannot add more players of this role. Maximum " ++ toString maxForRole ++
        " allowed, currently have " ++ toString currentCount ++ "."⟩]
  else
    .valid

/-- `validateOverseasLimits`: only applies to overseas candidates; the count
of acquired overseas players must be strictly below the configured max. -/
def validateOverseasLimits (teamState : TeamState) (newPlayer : Player)
    (allPlayers : List Player) (constraints : SquadConstraints) : ValidationResult :=
  if newPlayer.nationality ≠ .overseas then
    .valid
  else
    let overseasCount := countOverseasPlayers teamState.squad allPlayers
    if overseasCount ≥ constraints.maxOverseasPlayers then
      .invalid [⟨.OVERSEAS_LIMIT_EXCEEDED,
        "Cannot add more overseas players. Maximum " ++
          toString constraints.maxOverseasPlayers ++ " allowed, currently have " ++
          toString overseasCount ++ "."⟩]
    else
      .valid

/-- `validatePlayerAcquisition`: runs the four checks and accumulates all
violations in order (budget, squad size, role limit, overseas limit); the
source pushes each sub-result's errors only when that sub-result is invalid,
which coincides with concatenating the (empty-when-valid) error lists. -/
def validatePlayerAcquisition (teamState : TeamState) (player : Player)
    (bidAmount : ℚ) (allPlayers : List Player)
    (constraints : SquadConstraints) : ValidationResult :=
  let errs :=
    (validateBudget teamState bidAmount).errors ++
    (validateSquadSize teamState constraints).errors ++
    (validateRoleLimits teamState player allPlayers constraints).errors ++
    (validateOverseasLimits teamState player allPlayers constraints).errors
  if errs.isEmpty then .valid else .invalid errs

/-! ## Auction state (`src/domain/types.ts`, discriminated union) -/

/-- The five auction phases (`AuctionPhase`). -/
inductive AuctionPhase where
  | idle
  | bidding
  | sold
  | unsold
  | completed
deriving DecidableEq, Repr

/-- Fields of the `idle` variant (`IdleAuctionState`). -/
structure IdleAuctionState where
  completedPlayerIds : List String
  teams : List TeamState
  message : Option String
deriving DecidableEq, Repr

/-- Fields of the `bidding` variant (`BiddingAuctionState`). -/
structure BiddingAuctionState where
  currentPlayer : Player
  currentBid : Option CurrentBid
  timeRemaining : ℚ
  completedPlayerIds : List String
  teams : List TeamState
  message : Option String
deriving DecidableEq, Repr

/-- Fields of the `sold` variant (`SoldAuctionState`). -/
structure SoldAuctionState where
  soldPlayer : Player
  winningBid : CurrentBid
  completedPlayerIds : List String
  teams : List TeamState
  message : Option String
deriving DecidableEq, Repr

/-- Fields of the `unsold` variant (`UnsoldAuctionState`). -/
structure UnsoldAuctionState where
  unsoldPlayer : Player
  completedPlayerIds : List String
  teams : List TeamState
  message : Option String
deriving DecidableEq, Repr

/-- Fields of the `completed` variant (`CompletedAuctionState`). -/
structure CompletedAuctionState where
  completedPlayerIds : List String
  teams : List TeamState
  message : Option String
deriving DecidableEq, Repr

/-- The tagged auction state (`AuctionState`), one constructor per phase. -/
inductive AuctionState where
  | idle (s : IdleAuctionState)
  | bidding (s : BiddingAuctionState)
  | sold (s : SoldAuctionState)
  | unsold (s : UnsoldAuctionState)
  | completed (s : CompletedAuctionState)
deriving DecidableEq, Repr

/-- The phase discriminant of a state. -/
def AuctionState.phase : AuctionState → AuctionPhase
  | .idle _ => .idle
  | .bidding _ => .bidding
  | .sold _ => .sold
  | .unsold _ => .unsold
  | .completed _ => .completed

/-- The `completedPlayerIds` field, shared by every variant. -/
def AuctionState.completedPlayerIds : AuctionState → List String
  | .idle s => s.completedPlayerIds
  | .bidding s => s.completedPlayerIds
  | .sold s => s.completedPlayerIds
  | .unsold s => s.completedPlayerIds
  | .completed s => s.completedPlayerIds

/-- The `teams` field, shared by every variant. -/
def AuctionState.teams : AuctionState → List TeamState
  | .idle s => s.teams
  | .bidding s => s.teams
  | .sold s => s.teams
  | .unsold s => s.teams
  | .completed s => s.teams

/-- `timeRemaining` as exposed to the countdown driver: the bidding
variant's timer, `0` in every other phase. -/
def AuctionState.timeRemaining : AuctionState → ℚ
  | .bidding s => s.timeRemaining
  | _ => 0

/-- All possible auction actions (`AuctionAction`). -/
inductive AuctionAction where
  | startBidding (player : Player)
  | placeBid (teamId : String) (amount : ℚ)
  | invalidBid (reason : String)
  | timeExpired
  | playerSold
  | playerUnsold
  | resetToIdle
  | timerTick
deriving DecidableEq, Repr

/-! ## Auction rules (`src/domain/auctionRules.ts`) -/

/-- `getMinimumValidBid`: base price when no bid yet, otherwise the current
bid's amount plus the minimum increment. -/
def getMinimumValidBid (state : BiddingAuctionState) : ℚ :=
  match state.currentBid with
  | none => state.currentPlayer.basePrice
  | some cb => cb.amount + BID_INCREMENT_MIN

/-- `validateBid`: resolves the team (first list entry matching the id,
as `Array.prototype.find` does), rejects a bid below the minimum valid bid
with a single `BID_TOO_LOW` error, and otherwise delegates to
`validatePlayerAcquisition` with the default constraints. -/
def validateBid (state : BiddingAuctionState) (teamId : String) (bidAmount : ℚ)
    (allPlayers : List Player) : ValidationResult :=
  match state.teams.find? (fun t => t.teamId == teamId) with
  | none =>
      .invalid [⟨.NOT_YOUR_TURN, "Team not found in auction."⟩]
  | some teamState =>
      let minValidBid := getMinimumValidBid state
      if bidAmount < minValidBid then
        .invalid [⟨.BID_TOO_LOW,
          "Bid must be at least " ++ toString minValidBid ++
            "L. Minimum increment is " ++ toString BID_INCREMENT_MIN ++ "L."⟩]
      else
        validatePlayerAcquisition teamState state.currentPlayer bidAmount
          allPlayers DEFAULT_SQUAD_CONSTRAINTS

/-- `calculateTimeAfterBid`: extend the timer by the per-bid bonus, capped
at the maximum. -/
def calculateTimeAfterBid (currentTime : ℚ) : ℚ :=
  min (currentTime + TIME_EXTENSION_ON_BID) MAX_TIME_EXTENSION

/-- `finalizePlayerPurchase`: deduct the purchase price from the team's
budget and append the acquired player to its squad. -/
def finalizePlayerPurchase (teamState : TeamState) (playerId : String)
    (purchasePrice : ℚ) : TeamState :=
  ⟨teamState.teamId,
   teamState.remainingBudget - purchasePrice,
   teamState.squad ++ [⟨playerId, purchasePrice⟩]⟩

/-- `updateTeamsAfterSale`: map over all teams, finalizing the purchase on
the team(s) whose id matches the winning team id. -/
def updateTeamsAfterSale (teams : List TeamState) (winningTeamId : String)
    (playerId : String) (purchasePrice : ℚ) : List TeamState :=
  teams.map (fun team =>
    if team.teamId == winningTeamId then
      finalizePlayerPurchase team playerId purchasePrice
    else
      team)

/-! ## The reducer (`src/hooks/useAuction.ts`) -/

/-- `auctionReducer`: the pure state-transition function.  Each action is
guarded by the phases in which it is legal; out-of-phase dispatches return
the state unchanged (the source additionally logs a console warning). -/
def auctionReducer (state : AuctionState) (action : AuctionAction) : AuctionState :=
  match action with
  | .startBidding player =>
      match state with
      | .idle s =>
          .bidding ⟨player, none, INITIAL_BID_TIME, s.completedPlayerIds, s.teams,
            some ("Bidding started for " ++ player.name)⟩
      | _ => state
  | .placeBid teamId amount =>
      match state with
      | .bidding s =>
          .bidding ⟨s.currentPlayer, some ⟨teamId, amount⟩,
            calculateTimeAfterBid s.timeRemaining, s.completedPlayerIds, s.teams,
            some (teamId ++ " bids " ++ toString amount ++ "L")⟩
      | _ => state
  | .invalidBid reason =>
      match state with
      | .bidding s =>
          .bidding ⟨s.currentPlayer, s.currentBid, s.timeRemaining,
            s.completedPlayerIds, s.teams, some ("Invalid bid: " ++ reason)⟩
      | _ => state
  | .timerTick =>
      match state with
      | .bidding s =>
          let newTime := s.timeRemaining - 1
          if newTime ≤ 0 then
            .bidding ⟨s.currentPlayer, s.currentBid, 0,
              s.completedPlayerIds, s.teams, s.message⟩
          else
            .bidding ⟨s.currentPlayer, s.currentBid, newTime,
              s.completedPlayerIds, s.teams, s.message⟩
      | _ => state
  | .timeExpired =>
      match state with
      | .bidding s =>
          match s.currentBid with
          | some cb =>
              .sold ⟨s.currentPlayer, cb,
                s.completedPlayerIds ++ [s.currentPlayer.id],
                updateTeamsAfterSale s.teams cb.teamId s.currentPlayer.id cb.amount,
                some ("SOLD! " ++ s.currentPlayer.name ++ " to " ++ cb.teamId)⟩
          | none =>
              .unsold ⟨s.currentPlayer,
                s.completedPlayerIds ++ [s.currentPlayer.id], s.teams,
                some ("UNSOLD! " ++ s.currentPlayer.name ++ " received no bids")⟩
      | _ => state
  | .playerSold =>
      match state with
      | .bidding s =>
          match s.currentBid with
          | some cb =>
              .sold ⟨s.currentPlayer, cb,
                s.completedPlayerIds ++ [s.currentPlayer.id],
                updateTeamsAfterSale s.teams cb.teamId s.currentPlayer.id cb.amount,
                some ("SOLD! " ++ s.currentPlayer.name ++ " to " ++ cb.teamId)⟩
          | none => state
      | _ => state
  | .playerUnsold =>
      match state with
      | .bidding s =>
          .unsold ⟨s.currentPlayer,
            s.completedPlayerIds ++ [s.currentPlayer.id], s.teams,
            some ("UNSOLD! " ++ s.currentPlayer.name ++ " - passed")⟩
      | _ => state
  | .resetToIdle =>
      .idle ⟨state.completedPlayerIds, state.teams, none⟩

/-- `createInitialState`: all teams at their full starting budget with empty
squads, empty completed-player history, idle phase. -/
def createInitialState (teams : List Team) : AuctionState :=
  .idle ⟨[],
    teams.map (fun team => ⟨team.id, team.budget, []⟩),
    some "Welcome to the auction! Select a player to begin."⟩

/-! ## Dispatch discipline and reachability

The hook's `placeBid` action creator runs `validateBid` and dispatches
`PLACE_BID` only when it passes (`useAuction.ts`); every other action is
dispatched unconditionally.  `ValidDispatch` captures exactly that
discipline, and `Reachable` closes it under sequences of dispatches. -/

/-- A dispatch the surrounding hook would perform: `PLACE_BID` from a
bidding state must have been accepted by `validateBid` first; every other
event may be dispatched at any time (out-of-phase events are no-ops in the
reducer). -/
def ValidDispatch (allPlayers : List Player) (state : AuctionState)
    (action : AuctionAction) : Prop :=
  match action, state with
  | .placeBid teamId amount, .bidding s =>
      (validateBid s teamId amount allPlayers).isValid = true
  | _, _ => True

/-- States reachable from `init` by sequences of valid dispatches. -/
inductive Reachable (allPlayers : List Player) (init : AuctionState) :
    AuctionState → Prop where
  | refl : Reachable allPlayers init init
  | step (s : AuctionState) (a : AuctionAction)
      (hs : Reachable allPlayers init s) (hv : ValidDispatch allPlayers s a) :
      Reachable allPlayers init (auctionReducer s a)

/-! ## Recommendation engine (`src/domain/bidCalculator.ts`) -/

/-- Impact classification of a reasoning factor (`ReasoningFactor.impact`). -/
inductive ReasoningImpact where
  | positive
  | negative
  | neutral
deriving DecidableEq, Repr

/-- One explained adjustment factor (`ReasoningFactor`).  Explanation text
is abbreviated (the source builds longer sentences with `toFixed`
formatting); no claim depends on it. -/
structure ReasoningFactor where
  factor : String
  impact : ReasoningImpact
  explanation : String
deriving DecidableEq, Repr

/-- Confidence classification of a recommendation. -/
inductive Confidence where
  | low
  | medium
  | high
deriving DecidableEq, Repr

/-- An explained bid recommendation (`BidRecommendation`).
`recommendedMaxBid` is `Math.round`ed in the source, hence an integer. -/
structure BidRecommendation where
  recommendedMaxBid : ℤ
  confidence : Confidence
  reasoning : List ReasoningFactor
deriving DecidableEq, Repr

/-- JavaScript `Math.round`: round half toward positive infinity. -/
def mathRound (x : ℚ) : ℤ := ⌊x + 1 / 2⌋

/-- The experience bonus of `calculateQualityMultiplier`
(`if (stats.matches > 100) multiplier += 0.3; else if (> 50) += 0.15`). -/
def qualityMatchesBonus (matchesPlayed : Nat) : ℚ :=
  if matchesPlayed > 100 then 0.3
  else if matchesPlayed > 50 then 0.15
  else 0

/-- The batting-average bonus of `calculateQualityMultiplier`
(+0.4 above 40, +0.2 above 30, nothing when null). -/
def qualityBattingBonus (battingAverage : Option ℚ) : ℚ :=
  match battingAverage with
  | some avg => if avg > 40 then 0.4 else if avg > 30 then 0.2 else 0
  | none => 0

/-- The strike-rate bonus of `calculateQualityMultiplier`
(+0.3 above 150, +0.15 above 130, nothing when null). -/
def qualityStrikeBonus (strikeRate : Option ℚ) : ℚ :=
  match strikeRate with
  | some sr => if sr > 150 then 0.3 else if sr > 130 then 0.15 else 0
  | none => 0

/-- The bowling-average bonus of `calculateQualityMultiplier`
(+0.4 below 20, +0.2 below 25, nothing when null). -/
def qualityBowlingBonus (bowlingAverage : Option ℚ) : ℚ :=
  match bowlingAverage with
  | some avg => if avg < 20 then 0.4 else if avg < 25 then 0.2 else 0
  | none => 0

/-- The economy-rate bonus of `calculateQualityMultiplier`
(+0.3 below 7, +0.15 below 8, nothing when null). -/
def qualityEconomyBonus (economyRate : Option ℚ) : ℚ :=
  match economyRate with
  | some er => if er < 7 then 0.3 else if er < 8 then 0.15 else 0
  | none => 0

/-- `calculateQualityMultiplier`: starts at 1.0 and stacks the experience,
batting-average, strike-rate, bowling-average and economy-rate bonuses
additively (the source accumulates them with `+=`, which is this sum). -/
def calculateQualityMultiplier (player : Player) : ℚ :=
  let stats := player.stats
  1 + qualityMatchesBonus stats.matchesPlayed
    + qualityBattingBonus stats.battingAverage
    + qualityStrikeBonus stats.strikeRate
    + qualityBowlingBonus stats.bowlingAverage
    + qualityEconomyBonus stats.economyRate

/-- `calculateRoleScarcity`: urgency premium of +20% per player short of the
role minimum, a 0.5 discount at or above the role maximum, else neutral. -/
def calculateRoleScarcity (role : PlayerRole) (teamState : TeamState)
    (allPlayers : List Player) : ℚ :=
  let current := countPlayersByRole teamState.squad allPlayers role
  let constraints := DEFAULT_SQUAD_CONSTRAINTS.roleConstraints role
  if current < constraints.min then
    1 + ((constraints.min : ℚ) - (current : ℚ)) * 0.2
  else if current ≥ constraints.max then
    0.5
  else
    1.0

/-- `calculateOverseasMultiplier`: 0 with no overseas slots left, 0.8 with
at most two left, else 1.0. -/
def calculateOverseasMultiplier (teamState : TeamState)
    (allPlayers : List Player) : ℚ :=
  let overseasCount := countOverseasPlayers teamState.squad allPlayers
  let maxOverseas := DEFAULT_SQUAD_CONSTRAINTS.maxOverseasPlayers
  let slotsRemaining : ℤ := (maxOverseas : ℤ) - (overseasCount : ℤ)
  if slotsRemaining ≤ 0 then 0
  else if slotsRemaining ≤ 2 then 0.8
  else 1.0

/-- `calculateBudgetCap`: reserve 20L per mandatory future purchase beyond
this one; when the squad already meets the minimum size, the whole
remaining budget is spendable. -/
def calculateBudgetCap (teamState : TeamState) : ℚ :=
  let playersNeeded : ℤ :=
    (DEFAULT_SQUAD_CONSTRAINTS.minSquadSize : ℤ) - (teamState.squad.length : ℤ)
  if playersNeeded ≤ 0 then
    teamState.remainingBudget
  else
    let reserveAmount : ℚ := max 0 (((playersNeeded : ℚ) - 1) * 20)
    let spendableAmount := teamState.remainingBudget - reserveAmount
    max 20 spendableAmount

/-- `calculateConfidence`: ≥2 negative factors → low; ≥2 positive factors
with none negative → high; otherwise medium. -/
def calculateConfidence (reasoning : List ReasoningFactor) : Confidence :=
  let positives := (reasoning.filter (fun r => r.impact == .positive)).length
  let negatives := (reasoning.filter (fun r => r.impact == .negative)).length
  if negatives ≥ 2 then .low
  else if positives ≥ 2 ∧ negatives = 0 then .high
  else .medium

/-- `calculateBidRecommendation`: the deterministic pipeline — base price,
quality multiplier, role-scarcity multiplier, overseas multiplier (overseas
candidates only), budget cap, current-bid floor — with one reasoning entry
per applied stage and a rounded final ceiling. -/
def calculateBidRecommendation (player : Player) (teamState : TeamState)
    (allPlayers : List Player) (currentBid : Option ℚ) : BidRecommendation :=
  let qualityMultiplier := calculateQualityMultiplier player
  let bidAfterQuality := player.basePrice * qualityMultiplier
  let qualityFactor : ReasoningFactor :=
    ⟨"Player Quality",
     if qualityMultiplier > 1 then .positive
     else if qualityMultiplier < 1 then .negative else .neutral,
     "quality multiplier applied"⟩
  let scarcityMultiplier := calculateRoleScarcity player.role teamState allPlayers
  let bidAfterScarcity := bidAfterQuality * scarcityMultiplier
  let scarcityFactor : ReasoningFactor :=
    ⟨"Role Scarcity",
     if scarcityMultiplier > 1 then .positive
     else if scarcityMultiplier < 1 then .negative else .neutral,
     "role scarcity multiplier applied"⟩
  let afterOverseas :=
    if player.nationality = .overseas then
      let overseasMultiplier := calculateOverseasMultiplier teamState allPlayers
      (bidAfterScarcity * overseasMultiplier,
       [qualityFactor, scarcityFactor,
        (⟨"Overseas Slot",
          if overseasMultiplier > 1 then .positive
          else if overseasMultiplier < 1 then .negative else .neutral,
          "overseas slot multiplier applied"⟩ : ReasoningFactor)])
    else
      (bidAfterScarcity, [qualityFactor, scarcityFactor])
  let budgetCap := calculateBudgetCap teamState
  let bidAfterCap := min afterOverseas.1 budgetCap
  let budgetFactor : ReasoningFactor :=
    ⟨"Budget Constraint",
     if bidAfterCap < afterOverseas.1 then .negative else .neutral,
     "budget cap applied"⟩
  let reasoningAfterCap := afterOverseas.2 ++ [budgetFactor]
  let final :=
    match currentBid with
    | some cb =>
        if bidAfterCap ≤ cb then
          (cb + 5,
           reasoningAfterCap ++
             [(⟨"Current Bid", .neutral, "adjusted to beat current bid"⟩ :
               ReasoningFactor)])
        else
          (bidAfterCap, reasoningAfterCap)
    | none => (bidAfterCap, reasoningAfterCap)
  ⟨mathRound final.1, calculateConfidence final.2, final.2⟩

/-- Replaces only a player's batting average, leaving every other field of
the player and its stats untouched (used to state the monotonicity claim
"holding all else fixed"). -/
def setBattingAverage (player : Player) (avg : Option ℚ) : Player :=
  ⟨player.id, player.name, player.role, player.nationality, player.basePrice,
   ⟨player.stats.matchesPlayed, avg, player.stats.bowlingAverage,
    player.stats.strikeRate, player.stats.economyRate⟩⟩

/-! ## Concrete fixtures used by witnesses and counterexamples -/

/-- A domestic batter with base price 50 and no notable stats. -/
def exPlayer : Player := ⟨"p1", "Player One", .batter, .domestic, 50, ⟨10, none, none, none, none⟩⟩

/-- One team with a remaining budget of 100 and an empty squad. -/
def exTeamState : TeamState := ⟨"t1", 100, []⟩

/-- A bidding-phase state on `exPlayer` with no current bid. -/
def exBiddingNoBid : BiddingAuctionState :=
  ⟨exPlayer, none, 60, [], [exTeamState], none⟩

/-- The same bidding-phase state after a bid of 50 by team `t1`. -/
def exBiddingWithBid : BiddingAuctionState :=
  ⟨exPlayer, some ⟨"t1", 50⟩, 42, [], [exTeamState], none⟩

/-! ## C7 — minimum valid bid -/

/-- C7: for every bidding-phase state, `getMinimumValidBid` returns the
current player's base price when `currentBid` is null, and
`currentBid.amount + 5` when a current bid exists. -/
theorem minimum_valid_bid_spec (state : BiddingAuctionState) :
    (state.currentBid = none →
      getMinimumValidBid state = state.currentPlayer.basePrice) ∧
    (∀ cb : CurrentBid, state.currentBid = some cb →
      getMinimumValidBid state = cb.amount + 5) := by
  constructor
  · intro h
    simp [getMinimumValidBid, h]
  · intro cb h
    simp [getMinimumValidBid, h, BID_INCREMENT_MIN]

/-- C7 witness: with base price 50 and no bid the minimum is 50; after a
bid of 50 it is 55. -/
theorem minimum_valid_bid_spec_witness :
    getMinimumValidBid exBiddingNoBid = 50 ∧
    getMinimumValidBid exBiddingWithBid = 55 := by
  constructor
  · have h := (minimum_valid_bid_spec exBiddingNoBid).1 rfl
    simpa [exBiddingNoBid, exPlayer] using h
  · have h := (minimum_valid_bid_spec exBiddingWithBid).2 ⟨"t1", 50⟩ rfl
    rw [h]
    norm_num

/-! ## C2 — expiry with no current bid

The `TIME_EXPIRED` half of the claim holds, but `PLAYER_SOLD` on a
bidding-phase state with a null `currentBid` is a no-op in the reducer
(its guard `state.currentBid === null` returns the state unchanged), not a
transition to `unsold`. -/

/-- C2 counterexample: dispatching `PLAYER_SOLD` on a bidding-phase state
whose `currentBid` is null leaves the state unchanged in the `bidding`
phase — it does not produce an unsold-phase state as claimed. -/
theorem player_sold_no_bid_counterexample :
    auctionReducer (.bidding exBiddingNoBid) .playerSold = .bidding exBiddingNoBid ∧
    exBiddingNoBid.currentBid = none ∧
    (auctionReducer (.bidding exBiddingNoBid) .playerSold).phase ≠ AuctionPhase.unsold := by
  refine ⟨rfl, rfl, ?_⟩
  decide

/-- C2 amended: dispatching `TIME_EXPIRED` on a bidding-phase state whose
`currentBid` is null produces an unsold-phase state with every team's
`TeamState` unchanged and the current player's id appended to
`completedPlayerIds`; dispatching `PLAYER_SOLD` on such a state returns it
unchanged. -/
theorem time_expired_no_bid_amended (state : BiddingAuctionState)
    (h : state.currentBid = none) :
    (auctionReducer (.bidding state) .timeExpired).phase = AuctionPhase.unsold ∧
    (auctionReducer (.bidding state) .timeExpired).teams = state.teams ∧
    (auctionReducer (.bidding state) .timeExpired).completedPlayerIds
      = state.completedPlayerIds ++ [state.currentPlayer.id] ∧
    auctionReducer (.bidding state) .playerSold = .bidding state := by
  refine ⟨?_, ?_, ?_, ?_⟩ <;>
    simp [auctionReducer, h, AuctionState.phase, AuctionState.teams,
      AuctionState.completedPlayerIds]

/-- C2 amended witness: the amended behaviour at the concrete no-bid
bidding state. -/
theorem time_expired_no_bid_amended_witness :
    (auctionReducer (.bidding exBiddingNoBid) .timeExpired).phase = AuctionPhase.unsold ∧
    (auctionReducer (.bidding exBiddingNoBid) .timeExpired).teams = [exTeamState] ∧
    (auctionReducer (.bidding exBiddingNoBid) .timeExpired).completedPlayerIds = ["p1"] := by
  have h := time_expired_no_bid_amended exBiddingNoBid rfl
  exact ⟨h.1, h.2.1, h.2.2.1⟩

/-! ## C3 — out-of-phase events

All events except `RESET_TO_IDLE` are no-ops outside their declared phases,
but the reducer's `RESET_TO_IDLE` case has no phase guard at all: it resets
to `idle` from every phase, including `bidding` and `idle`. -/

/-- C3 counterexample: `RESET_TO_IDLE` dispatched on a bidding-phase state
(outside its declared legal phases `sold`/`unsold`) changes the state. -/
theorem reset_to_idle_counterexample :
    (AuctionState.bidding exBiddingNoBid).phase ≠ AuctionPhase.sold ∧
    (AuctionState.bidding exBiddingNoBid).phase ≠ AuctionPhase.unsold ∧
    auctionReducer (.bidding exBiddingNoBid) .resetToIdle ≠ .bidding exBiddingNoBid := by
  refine ⟨by decide, by decide, ?_⟩
  decide

/-- C3 amended: `START_BIDDING` outside `idle` and `PLACE_BID`,
`INVALID_BID`, `TIMER_TICK`, `TIME_EXPIRED`, `PLAYER_SOLD`, `PLAYER_UNSOLD`
outside `bidding` leave the state unchanged, while `RESET_TO_IDLE` is not
guarded: from every phase it produces the idle state that keeps the
completed-player history and team states and clears the message. -/
theorem out_of_phase_noop_amended (s : AuctionState) :
    (∀ p : Player, s.phase ≠ AuctionPhase.idle →
      auctionReducer s (.startBidding p) = s) ∧
    (∀ (tid : String) (amt : ℚ), s.phase ≠ AuctionPhase.bidding →
      auctionReducer s (.placeBid tid amt) = s) ∧
    (∀ r : String, s.phase ≠ AuctionPhase.bidding →
      auctionReducer s (.invalidBid r) = s) ∧
    (s.phase ≠ AuctionPhase.bidding → auctionReducer s .timerTick = s) ∧
    (s.phase ≠ AuctionPhase.bidding → auctionReducer s .timeExpired = s) ∧
    (s.phase ≠ AuctionPhase.bidding → auctionReducer s .playerSold = s) ∧
    (s.phase ≠ AuctionPhase.bidding → auctionReducer s .playerUnsold = s) ∧
    auctionReducer s .resetToIdle = .idle ⟨s.completedPlayerIds, s.teams, none⟩ := by
  cases s <;>
    simp [auctionReducer, AuctionState.phase, AuctionState.completedPlayerIds,
      AuctionState.teams]

/-- C3 amended witness: at a concrete sold-phase state, the bidding-only
events are no-ops and `RESET_TO_IDLE` produces the history-preserving idle
state. -/
theorem out_of_phase_noop_amended_witness :
    auctionReducer (.sold ⟨exPlayer, ⟨"t1", 50⟩, ["p1"], [exTeamState], none⟩)
        .timerTick
      = .sold ⟨exPlayer, ⟨"t1", 50⟩, ["p1"], [exTeamState], none⟩ ∧
    auctionReducer (.sold ⟨exPlayer, ⟨"t1", 50⟩, ["p1"], [exTeamState], none⟩)
        (.placeBid "t1" 60)
      = .sold ⟨exPlayer, ⟨"t1", 50⟩, ["p1"], [exTeamState], none⟩ ∧
    auctionReducer (.sold ⟨exPlayer, ⟨"t1", 50⟩, ["p1"], [exTeamState], none⟩)
        .resetToIdle
      = .idle ⟨["p1"], [exTeamState], none⟩ := by
  have h := out_of_phase_noop_amended
    (.sold ⟨exPlayer, ⟨"t1", 50⟩, ["p1"], [exTeamState], none⟩)
  exact ⟨h.2.2.2.1 (by decide), h.2.1 "t1" 60 (by decide), h.2.2.2.2.2.2.2⟩

/-! ## C4 — finalizing a sale -/

/-- C4: dispatching `TIME_EXPIRED` or `PLAYER_SOLD` on a bidding-phase
state whose current bid is `⟨t, a⟩` produces a sold-phase state in which
every team with id `t` has its budget reduced by exactly `a` and an
`AcquiredPlayer` carrying the current player's id and price `a` appended to
its squad, every other team is unchanged, and the current player's id is
appended to `completedPlayerIds` exactly once. -/
theorem sale_finalization (state : BiddingAuctionState) (cb : CurrentBid)
    (h : state.currentBid = some cb) (e : AuctionAction)
    (he : e = .timeExpired ∨ e = .playerSold) :
    (auctionReducer (.bidding state) e).phase = AuctionPhase.sold ∧
    (auctionReducer (.bidding state) e).completedPlayerIds
      = state.completedPlayerIds ++ [state.currentPlayer.id] ∧
    (auctionReducer (.bidding state) e).teams
      = state.teams.map (fun t =>
          if t.teamId = cb.teamId then
            ⟨t.teamId, t.remainingBudget - cb.amount,
             t.squad ++ [⟨state.currentPlayer.id, cb.amount⟩]⟩
          else t) := by
  rcases he with rfl | rfl <;>
    refine ⟨?_, ?_, ?_⟩ <;>
      simp [auctionReducer, h, AuctionState.phase, AuctionState.completedPlayerIds,
        AuctionState.teams, updateTeamsAfterSale, finalizePlayerPurchase]

/-- C4 witness: the spec's scenario — a winning bid of 120 by team `t3`
leaves `t3` at budget 380 with the player in its squad, the other team
untouched, and the player id recorded once. -/
theorem sale_finalization_witness :
    (auctionReducer
        (.bidding ⟨exPlayer, some ⟨"t3", 120⟩, 10, [],
          [⟨"t3", 500, []⟩, ⟨"t2", 300, []⟩], none⟩) .timeExpired).phase
        = AuctionPhase.sold ∧
    (auctionReducer
        (.bidding ⟨exPlayer, some ⟨"t3", 120⟩, 10, [],
          [⟨"t3", 500, []⟩, ⟨"t2", 300, []⟩], none⟩) .timeExpired).completedPlayerIds
        = ["p1"] ∧
    (auctionReducer
        (.bidding ⟨exPlayer, some ⟨"t3", 120⟩, 10, [],
          [⟨"t3", 500, []⟩, ⟨"t2", 300, []⟩], none⟩) .timeExpired).teams
        = [⟨"t3", 380, [⟨"p1", 120⟩]⟩, ⟨"t2", 300, []⟩] := by
  have h := sale_finalization
    ⟨exPlayer, some ⟨"t3", 120⟩, 10, [], [⟨"t3", 500, []⟩, ⟨"t2", 300, []⟩], none⟩
    ⟨"t3", 120⟩ rfl .timeExpired (Or.inl rfl)
  refine ⟨h.1, by simpa [exPlayer] using h.2.1, ?_⟩
  rw [h.2.2]
  norm_num [exPlayer]
  decide

/-! ## C6 — timer extension cap -/

/-- C6: `PLACE_BID` on a bidding-phase state sets `timeRemaining` to
`min (previous + 15) 60`, and after any further sequence of repeated bids
`timeRemaining` never exceeds 60. -/
theorem timer_extension_cap (state : BiddingAuctionState) (teamId : String)
    (amount : ℚ) (bids : List (String × ℚ)) :
    (auctionReducer (.bidding state) (.placeBid teamId amount)).timeRemaining
      = min (state.timeRemaining + 15) 60 ∧
    (List.foldl (fun s p => auctionReducer s (.placeBid p.1 p.2))
        (auctionReducer (.bidding state) (.placeBid teamId amount))
        bids).timeRemaining ≤ 60 := by
  have hstep : ∀ (s : AuctionState) (tid : String) (amt : ℚ),
      s.timeRemaining ≤ 60 →
      (auctionReducer s (.placeBid tid amt)).timeRemaining ≤ 60 := by
    intro s tid amt hs
    cases s <;>
      simp_all [auctionReducer, AuctionState.timeRemaining, calculateTimeAfterBid,
        MAX_TIME_EXTENSION]
  have hfold : ∀ (bs : List (String × ℚ)) (s : AuctionState),
      s.timeRemaining ≤ 60 →
      (List.foldl (fun s p => auctionReducer s (.placeBid p.1 p.2)) s bs).timeRemaining
        ≤ 60 := by
    intro bs
    induction bs with
    | nil => intro s hs; simpa using hs
    | cons b bs ih =>
        intro s hs
        exact ih _ (hstep s b.1 b.2 hs)
  have hfirst :
      (auctionReducer (.bidding state) (.placeBid teamId amount)).timeRemaining
        = min (state.timeRemaining + 15) 60 := by
    simp [auctionReducer, AuctionState.timeRemaining, calculateTimeAfterBid,
      TIME_EXTENSION_ON_BID, MAX_TIME_EXTENSION]
  exact ⟨hfirst, hfold bids _ (by rw [hfirst]; exact min_le_right _ _)⟩

/-! ## C5 — exhaustive, accumulating validation -/

/-- A failing budget check reports exactly one `INSUFFICIENT_BUDGET`
violation. -/
lemma validateBudget_errors_of_invalid (teamState : TeamState) (bidAmount : ℚ)
    (h : (validateBudget teamState bidAmount).isValid = false) :
    (validateBudget teamState bidAmount).errors.map ValidationError.code
      = [.INSUFFICIENT_BUDGET] := by
  by_cases hc : bidAmount > teamState.remainingBudget
  · simp [validateBudget, hc, ValidationResult.errors]
  · simp [validateBudget, hc, ValidationResult.isValid] at h

/-- A failing role-limit check reports exactly one `ROLE_LIMIT_EXCEEDED`
violation. -/
lemma validateRoleLimits_errors_of_invalid (teamState : TeamState) (player : Player)
    (allPlayers : List Player) (constraints : SquadConstraints)
    (h : (validateRoleLimits teamState player allPlayers constraints).isValid = false) :
    (validateRoleLimits teamState player allPlayers constraints).errors.map
        ValidationError.code
      = [.ROLE_LIMIT_EXCEEDED] := by
  by_cases hc : countPlayersByRole teamState.squad allPlayers player.role
      ≥ (constraints.roleConstraints player.role).max
  · simp [validateRoleLimits, hc, ValidationResult.errors]
  · simp [validateRoleLimits, hc, ValidationResult.isValid] at h

/-- C5: `validatePlayerAcquisition` accumulates the violations of all four
checks in order (budget, squad size, role limit, overseas limit) without
short-circuiting; in particular, when both the budget check and the
role-limit check fail, the result contains both an `INSUFFICIENT_BUDGET`
and a `ROLE_LIMIT_EXCEEDED` violation. -/
theorem validation_accumulates (teamState : TeamState) (player : Player)
    (bidAmount : ℚ) (allPlayers : List Player) (constraints : SquadConstraints) :
    (validatePlayerAcquisition teamState player bidAmount allPlayers constraints).errors
      = (validateBudget teamState bidAmount).errors
        ++ (validateSquadSize teamState constraints).errors
        ++ (validateRoleLimits teamState player allPlayers constraints).errors
        ++ (validateOverseasLimits teamState player allPlayers constraints).errors ∧
    ((validateBudget teamState bidAmount).isValid = false →
     (validateRoleLimits teamState player allPlayers constraints).isValid = false →
     ValidationErrorCode.INSUFFICIENT_BUDGET ∈
       (validatePlayerAcquisition teamState player bidAmount allPlayers
         constraints).errors.map ValidationError.code ∧
     ValidationErrorCode.ROLE_LIMIT_EXCEEDED ∈
       (validatePlayerAcquisition teamState player bidAmount allPlayers
         constraints).errors.map ValidationError.code) := by
  have hacc :
      (validatePlayerAcquisition teamState player bidAmount allPlayers
          constraints).errors
        = (validateBudget teamState bidAmount).errors
          ++ (validateSquadSize teamState constraints).errors
          ++ (validateRoleLimits teamState player allPlayers constraints).errors
          ++ (validateOverseasLimits teamState player allPlayers constraints).errors := by
    simp only [validatePlayerAcquisition]
    split
    · next hempty =>
        simp only [ValidationResult.errors]
        exact (List.isEmpty_iff.mp hempty).symm
    · rfl
  refine ⟨hacc, fun hb hr => ?_⟩
  have h1 := validateBudget_errors_of_invalid teamState bidAmount hb
  have h2 := validateRoleLimits_errors_of_invalid teamState player allPlayers
    constraints hr
  rw [hacc]
  simp only [List.map_append, List.mem_append, h1, h2]
  constructor
  · exact Or.inl (Or.inl (Or.inl (by simp)))
  · exact Or.inl (Or.inr (by simp))

/-- C5 witness: a team over budget (bid 50 against budget 10) that already
holds the maximum three wicket-keepers gets both violations reported at
once for a fourth wicket-keeper. -/
theorem validation_accumulates_witness :
    ValidationErrorCode.INSUFFICIENT_BUDGET ∈
      ((validatePlayerAcquisition ⟨"t1", 10, [⟨"w1", 5⟩, ⟨"w2", 5⟩, ⟨"w3", 5⟩]⟩
          ⟨"w4", "Keeper Four", .wicketKeeper, .domestic, 50, ⟨10, none, none, none, none⟩⟩
          50
          [⟨"w1", "K1", .wicketKeeper, .domestic, 5, ⟨1, none, none, none, none⟩⟩,
           ⟨"w2", "K2", .wicketKeeper, .domestic, 5, ⟨1, none, none, none, none⟩⟩,
           ⟨"w3", "K3", .wicketKeeper, .domestic, 5, ⟨1, none, none, none, none⟩⟩]
          DEFAULT_SQUAD_CONSTRAINTS).errors.map ValidationError.code) ∧
    ValidationErrorCode.ROLE_LIMIT_EXCEEDED ∈
      ((validatePlayerAcquisition ⟨"t1", 10, [⟨"w1", 5⟩, ⟨"w2", 5⟩, ⟨"w3", 5⟩]⟩
          ⟨"w4", "Keeper Four", .wicketKeeper, .domestic, 50, ⟨10, none, none, none, none⟩⟩
          50
          [⟨"w1", "K1", .wicketKeeper, .domestic, 5, ⟨1, none, none, none, none⟩⟩,
           ⟨"w2", "K2", .wicketKeeper, .domestic, 5, ⟨1, none, none, none, none⟩⟩,
           ⟨"w3", "K3", .wicketKeeper, .domestic, 5, ⟨1, none, none, none, none⟩⟩]
          DEFAULT_SQUAD_CONSTRAINTS).errors.map ValidationError.code) := by
  exact (validation_accumulates ⟨"t1", 10, [⟨"w1", 5⟩, ⟨"w2", 5⟩, ⟨"w3", 5⟩]⟩
    ⟨"w4", "Keeper Four", .wicketKeeper, .domestic, 50, ⟨10, none, none, none, none⟩⟩
    50
    [⟨"w1", "K1", .wicketKeeper, .domestic, 5, ⟨1, none, none, none, none⟩⟩,
     ⟨"w2", "K2", .wicketKeeper, .domestic, 5, ⟨1, none, none, none, none⟩⟩,
     ⟨"w3", "K3", .wicketKeeper, .domestic, 5, ⟨1, none, none, none, none⟩⟩]
    DEFAULT_SQUAD_CONSTRAINTS).2 (by decide) (by decide)

/-! ## C10 — BID_TOO_LOW short-circuits the acquisition checks

The claim holds only when the team id resolves to a team in the state: the
team-lookup guard runs first, and an unknown team id yields a single
`NOT_YOUR_TURN` error even when the bid is below the minimum. -/

/-- C10 counterexample: a bid of 1 (below the minimum valid bid of 50) by a
team id not present in the state returns a single `NOT_YOUR_TURN` error,
not a `BID_TOO_LOW` one. -/
theorem bid_too_low_counterexample :
    ((validateBid exBiddingNoBid "ghost" 1 []).errors.map ValidationError.code
      = [.NOT_YOUR_TURN]) ∧
    (1 : ℚ) < getMinimumValidBid exBiddingNoBid ∧
    ValidationErrorCode.NOT_YOUR_TURN ≠ ValidationErrorCode.BID_TOO_LOW := by
  refine ⟨by decide, by decide, by decide⟩

/-- C10 amended: provided the team id resolves to a team in the state's
team list, a bid strictly below the minimum valid bid makes `validateBid`
return exactly one error, with code `BID_TOO_LOW`, without running the
acquisition checks. -/
theorem bid_too_low_short_circuit_amended (state : BiddingAuctionState)
    (teamId : String) (bidAmount : ℚ) (allPlayers : List Player) (ts : TeamState)
    (hfind : state.teams.find? (fun t => t.teamId == teamId) = some ts)
    (hlow : bidAmount < getMinimumValidBid state) :
    (validateBid state teamId bidAmount allPlayers).errors.map ValidationError.code
      = [.BID_TOO_LOW] := by
  simp [validateBid, hfind, hlow, ValidationResult.errors]

/-- C10 amended witness: team `t1` is in the state, a bid of 1 is below the
minimum of 50, and exactly one `BID_TOO_LOW` error comes back. -/
theorem bid_too_low_short_circuit_amended_witness :
    (validateBid exBiddingNoBid "t1" 1 []).errors.map ValidationError.code
      = [.BID_TOO_LOW] := by
  exact bid_too_low_short_circuit_amended exBiddingNoBid "t1" 1 [] exTeamState
    (by decide) (by decide)

/-! ## C9 — budget cap of the recommendation engine

The reserve formula of the claim matches the code, but the floor of 20 does
not always hold: when the squad has already reached `minSquadSize` the code
returns the remaining budget unfloored, which can be below 20. -/

/-- C9 counterexample: a team whose squad already has the minimum 15
players and whose remaining budget is 5 gets a budget cap of 5 — below the
floor of 20 that the claim asserts always holds. -/
theorem budget_cap_counterexample :
    calculateBudgetCap ⟨"t1", 5, List.replicate 15 ⟨"p", 20⟩⟩ = 5 ∧
    calculateBudgetCap ⟨"t1", 5, List.replicate 15 ⟨"p", 20⟩⟩ < 20 := by
  refine ⟨by decide, by decide⟩

/-- C9 amended: when the squad is below `minSquadSize`, the cap equals
`remainingBudget - (playersNeeded - 1) * 20` floored at 20 (the reserve's
`max 0` is redundant there because `playersNeeded ≥ 1`); when the squad has
already reached `minSquadSize`, the cap is exactly `remainingBudget`, with
no floor at 20. -/
theorem budget_cap_amended (teamState : TeamState) :
    (teamState.squad.length < DEFAULT_SQUAD_CONSTRAINTS.minSquadSize →
      calculateBudgetCap teamState
        = max 20 (teamState.remainingBudget
            - ((DEFAULT_SQUAD_CONSTRAINTS.minSquadSize : ℚ)
                - (teamState.squad.length : ℚ) - 1) * 20) ∧
      20 ≤ calculateBudgetCap teamState) ∧
    (DEFAULT_SQUAD_CONSTRAINTS.minSquadSize ≤ teamState.squad.length →
      calculateBudgetCap teamState = teamState.remainingBudget) := by
  constructor
  · intro hlt
    have hpos : ¬ ((DEFAULT_SQUAD_CONSTRAINTS.minSquadSize : ℤ)
        - (teamState.squad.length : ℤ) ≤ 0) := by omega
    have hcast : ((((DEFAULT_SQUAD_CONSTRAINTS.minSquadSize : ℤ)
          - (teamState.squad.length : ℤ)) : ℤ) : ℚ)
        = (DEFAULT_SQUAD_CONSTRAINTS.minSquadSize : ℚ)
          - (teamState.squad.length : ℚ) := by
      push_cast
      ring
    have h1 : (1 : ℚ) ≤ (DEFAULT_SQUAD_CONSTRAINTS.minSquadSize : ℚ)
        - (teamState.squad.length : ℚ) := by
      have hn : teamState.squad.length + 1 ≤ DEFAULT_SQUAD_CONSTRAINTS.minSquadSize := hlt
      have hq : (teamState.squad.length : ℚ) + 1
          ≤ (DEFAULT_SQUAD_CONSTRAINTS.minSquadSize : ℚ) := by exact_mod_cast hn
      linarith
    have hmain : calculateBudgetCap teamState
        = max 20 (teamState.remainingBudget
            - ((DEFAULT_SQUAD_CONSTRAINTS.minSquadSize : ℚ)
                - (teamState.squad.length : ℚ) - 1) * 20) := by
      simp only [calculateBudgetCap]
      rw [if_neg hpos, hcast,
        max_eq_right (mul_nonneg (by linarith) (by norm_num))]
    exact ⟨hmain, hmain ▸ le_max_left _ _⟩
  · intro hge
    simp only [calculateBudgetCap]
    rw [if_pos (by omega)]

/-- C9 amended witness: a team with budget 100 and an empty squad (needing
15 players, so a reserve of 280) is capped at the floor of 20; a team with
15 squad members and budget 5 is capped at exactly its remaining budget. -/
theorem budget_cap_amended_witness :
    calculateBudgetCap ⟨"t1", 100, []⟩ = 20 ∧
    calculateBudgetCap ⟨"t1", 5, List.replicate 15 ⟨"p", 20⟩⟩ = 5 := by
  constructor
  · have h := (budget_cap_amended ⟨"t1", 100, []⟩).1 (by decide)
    rw [h.1]
    norm_num [DEFAULT_SQUAD_CONSTRAINTS]
  · have h := (budget_cap_amended ⟨"t1", 5, List.replicate 15 ⟨"p", 20⟩⟩).2 (by decide)
    simpa using h

/-! ## C8 — monotonicity of the recommendation in battingAverage

The claim fails because of the current-bid floor: when the lower-average
estimate lands at or below the current bid it is bumped to
`currentBid + 5`, which can exceed the higher-average estimate.  With no
current bid the monotonicity does hold. -/

/-- C8 counterexample: raising the batting average from 35 to 45 (all other
inputs fixed, current bid 165) lowers the recommended ceiling from 170 to
168, because only the lower estimate gets the `currentBid + 5` bump. -/
theorem recommendation_monotonicity_counterexample :
    (35 : ℚ) < 45 ∧
    (calculateBidRecommendation
        ⟨"p8", "Player Eight", .wicketKeeper, .domestic, 100,
          ⟨10, some 35, none, none, none⟩⟩
        ⟨"t1", 10000, []⟩ [] (some 165)).recommendedMaxBid = 170 ∧
    (calculateBidRecommendation
        (setBattingAverage
          ⟨"p8", "Player Eight", .wicketKeeper, .domestic, 100,
            ⟨10, some 35, none, none, none⟩⟩ (some 45))
        ⟨"t1", 10000, []⟩ [] (some 165)).recommendedMaxBid = 168 ∧
    (168 : ℤ) < 170 := by
  refine ⟨by norm_num, ?_, ?_, by norm_num⟩
  · norm_num [calculateBidRecommendation, calculateQualityMultiplier,
      qualityMatchesBonus, qualityBattingBonus, qualityStrikeBonus,
      qualityBowlingBonus, qualityEconomyBonus, calculateRoleScarcity,
      calculateOverseasMultiplier, calculateBudgetCap, countPlayersByRole,
      countOverseasPlayers, lookupPlayer, mathRound, calculateConfidence,
      DEFAULT_SQUAD_CONSTRAINTS,
      (by decide : PlayerNationality.domestic ≠ PlayerNationality.overseas)]
  · norm_num [calculateBidRecommendation, calculateQualityMultiplier,
      qualityMatchesBonus, qualityBattingBonus, qualityStrikeBonus,
      qualityBowlingBonus, qualityEconomyBonus, calculateRoleScarcity,
      calculateOverseasMultiplier, calculateBudgetCap, countPlayersByRole,
      countOverseasPlayers, lookupPlayer, mathRound, calculateConfidence,
      setBattingAverage, DEFAULT_SQUAD_CONSTRAINTS,
      (by decide : PlayerNationality.domestic ≠ PlayerNationality.overseas)]

/-- The batting-average bonus is monotone in the (non-null) average. -/
lemma qualityBattingBonus_mono (a a' : ℚ) (h : a ≤ a') :
    qualityBattingBonus (some a) ≤ qualityBattingBonus (some a') := by
  simp only [qualityBattingBonus]
  split_ifs <;> linarith

/-- Raising only the batting average never lowers the quality multiplier. -/
lemma calculateQualityMultiplier_mono_batting (p : Player) (a a' : ℚ)
    (hp : p.stats.battingAverage = some a) (h : a ≤ a') :
    calculateQualityMultiplier p
      ≤ calculateQualityMultiplier (setBattingAverage p (some a')) := by
  have hb := qualityBattingBonus_mono a a' h
  simp only [calculateQualityMultiplier, setBattingAverage, hp]
  linarith

/-- The role-scarcity multiplier is never negative. -/
lemma calculateRoleScarcity_nonneg (role : PlayerRole) (teamState : TeamState)
    (allPlayers : List Player) : 0 ≤ calculateRoleScarcity role teamState allPlayers := by
  simp only [calculateRoleScarcity]
  split_ifs with h1 h2
  · have hc : (countPlayersByRole teamState.squad allPlayers role : ℚ)
        ≤ ((DEFAULT_SQUAD_CONSTRAINTS.roleConstraints role).min : ℚ) := by
      exact_mod_cast le_of_lt h1
    have := mul_nonneg (sub_nonneg.mpr hc) (by norm_num : (0:ℚ) ≤ 0.2)
    linarith
  · norm_num
  · norm_num

/-- The overseas multiplier is never negative. -/
lemma calculateOverseasMultiplier_nonneg (teamState : TeamState)
    (allPlayers : List Player) : 0 ≤ calculateOverseasMultiplier teamState allPlayers := by
  simp only [calculateOverseasMultiplier]
  split_ifs <;> norm_num

/-- JavaScript rounding is monotone. -/
lemma mathRound_mono (x y : ℚ) (h : x ≤ y) : mathRound x ≤ mathRound y :=
  Int.floor_le_floor (by linarith)

/-- `setBattingAverage` leaves the base price unchanged. -/
lemma setBattingAverage_basePrice (p : Player) (v : Option ℚ) :
    (setBattingAverage p v).basePrice = p.basePrice := rfl

/-- `setBattingAverage` leaves the role unchanged. -/
lemma setBattingAverage_role (p : Player) (v : Option ℚ) :
    (setBattingAverage p v).role = p.role := rfl

/-- `setBattingAverage` leaves the nationality unchanged. -/
lemma setBattingAverage_nationality (p : Player) (v : Option ℚ) :
    (setBattingAverage p v).nationality = p.nationality := rfl

/-- With no current bid, the recommended ceiling is the rounded minimum of
the multiplied-out estimate and the budget cap (overseas factor only for
overseas candidates). -/
lemma calculateBidRecommendation_none_rec (p : Player) (teamState : TeamState)
    (allPlayers : List Player) :
    (calculateBidRecommendation p teamState allPlayers none).recommendedMaxBid
      = mathRound (min
          (p.basePrice * calculateQualityMultiplier p
            * calculateRoleScarcity p.role teamState allPlayers
            * (if p.nationality = PlayerNationality.overseas
               then calculateOverseasMultiplier teamState allPlayers else 1))
          (calculateBudgetCap teamState)) := by
  by_cases hn : p.nationality = PlayerNationality.overseas
  · simp [calculateBidRecommendation, hn]
  · simp [calculateBidRecommendation, hn]

/-- C8 amended: with no current bid, increasing only the player's batting
average (base price non-negative, as prices are) never decreases
`recommendedMaxBid`.  (With a current bid the property fails, see the
counterexample.) -/
theorem recommendation_monotonicity_amended (p : Player) (teamState : TeamState)
    (allPlayers : List Player) (a a' : ℚ)
    (hp : p.stats.battingAverage = some a) (h : a ≤ a') (hB : 0 ≤ p.basePrice) :
    (calculateBidRecommendation p teamState allPlayers none).recommendedMaxBid
      ≤ (calculateBidRecommendation (setBattingAverage p (some a')) teamState
          allPlayers none).recommendedMaxBid := by
  have hq := calculateQualityMultiplier_mono_batting p a a' hp h
  have hs := calculateRoleScarcity_nonneg p.role teamState allPlayers
  have ho := calculateOverseasMultiplier_nonneg teamState allPlayers
  have h1 : p.basePrice * calculateQualityMultiplier p
      ≤ p.basePrice * calculateQualityMultiplier (setBattingAverage p (some a')) :=
    mul_le_mul_of_nonneg_left hq hB
  have h2 : p.basePrice * calculateQualityMultiplier p
        * calculateRoleScarcity p.role teamState allPlayers
      ≤ p.basePrice * calculateQualityMultiplier (setBattingAverage p (some a'))
        * calculateRoleScarcity p.role teamState allPlayers :=
    mul_le_mul_of_nonneg_right h1 hs
  have hOnn : (0:ℚ) ≤ (if p.nationality = PlayerNationality.overseas
      then calculateOverseasMultiplier teamState allPlayers else 1) := by
    split_ifs
    · exact ho
    · norm_num
  have h3 := mul_le_mul_of_nonneg_right h2 hOnn
  rw [calculateBidRecommendation_none_rec, calculateBidRecommendation_none_rec,
    setBattingAverage_basePrice, setBattingAverage_role, setBattingAverage_nationality]
  exact mathRound_mono _ _ (min_le_min h3 (le_refl _))

/-- C8 amended witness: with no current bid, raising the batting average
from 35 to 45 does not lower the recommendation. -/
theorem recommendation_monotonicity_amended_witness :
    (calculateBidRecommendation
        ⟨"p8", "Player Eight", .wicketKeeper, .domestic, 100,
          ⟨10, some 35, none, none, none⟩⟩
        ⟨"t1", 10000, []⟩ [] none).recommendedMaxBid
      ≤ (calculateBidRecommendation
          (setBattingAverage
            ⟨"p8", "Player Eight", .wicketKeeper, .domestic, 100,
              ⟨10, some 35, none, none, none⟩⟩ (some 45))
          ⟨"t1", 10000, []⟩ [] none).recommendedMaxBid :=
  recommendation_monotonicity_amended _ _ _ 35 45 rfl (by norm_num) (by norm_num)

/-! ## C1 — the budget invariant -/

/-- Every team's remaining budget is non-negative. -/
def BudgetsNonneg (teams : List TeamState) : Prop :=
  ∀ ts ∈ teams, 0 ≤ ts.remainingBudget

/-- In a bidding phase with a current bid, every team carrying the bidding
team's id can afford the bid. -/
def CurrentBidAffordable : AuctionState → Prop
  | .bidding b =>
      match b.currentBid with
      | some cb => ∀ ts ∈ b.teams, ts.teamId = cb.teamId → cb.amount ≤ ts.remainingBudget
      | none => True
  | _ => True

/-- The inductive invariant: budgets non-negative, team ids distinct, and
any current bid affordable by its team. -/
def AuctionInvariant (s : AuctionState) : Prop :=
  BudgetsNonneg s.teams ∧ (s.teams.map TeamState.teamId).Nodup ∧ CurrentBidAffordable s

/-- With distinct team ids, `find?` by id pins down the only matching team. -/
lemma find_teamId_unique (tid : String) :
    ∀ (teams : List TeamState), (teams.map TeamState.teamId).Nodup →
    ∀ ts0 : TeamState, teams.find? (fun t => t.teamId == tid) = some ts0 →
    ∀ t ∈ teams, t.teamId = tid → t = ts0 := by
  intro teams
  induction teams with
  | nil => intro _ ts0 hf; simp at hf
  | cons a l ih =>
      intro hnd ts0 hf t ht htid
      rw [List.map_cons, List.nodup_cons] at hnd
      rcases List.mem_cons.mp ht with rfl | hmem
      · have hpa : (t.teamId == tid) = true := by simp [htid]
        simp only [List.find?_cons, hpa] at hf
        simpa using hf
      · by_cases hpa : (a.teamId == tid) = true
        · exfalso
          apply hnd.1
          have ha : a.teamId = tid := by simpa using hpa
          rw [ha]
          exact List.mem_map.mpr ⟨t, hmem, htid⟩
        · rw [Bool.not_eq_true] at hpa
          simp only [List.find?_cons, hpa] at hf
          exact ih hnd.2 ts0 hf t hmem htid

/-- A valid acquisition implies the bid is within the team's budget. -/
lemma validatePlayerAcquisition_isValid_budget (teamState : TeamState)
    (player : Player) (bidAmount : ℚ) (allPlayers : List Player)
    (constraints : SquadConstraints)
    (h : (validatePlayerAcquisition teamState player bidAmount allPlayers
        constraints).isValid = true) :
    bidAmount ≤ teamState.remainingBudget := by
  by_contra hgt
  have hbne : (validateBudget teamState bidAmount).errors ≠ [] := by
    simp [validateBudget, not_le.mp hgt, ValidationResult.errors]
  simp only [validatePlayerAcquisition] at h
  split at h
  · next hempty =>
      rw [List.isEmpty_iff] at hempty
      simp only [List.append_eq_nil] at hempty
      exact hbne hempty.1.1.1
  · simp [ValidationResult.isValid] at h

/-- An accepted bid resolves the bidding team and fits in its budget. -/
lemma validateBid_isValid_spec (state : BiddingAuctionState) (teamId : String)
    (bidAmount : ℚ) (allPlayers : List Player)
    (h : (validateBid state teamId bidAmount allPlayers).isValid = true) :
    ∃ ts0 : TeamState, state.teams.find? (fun t => t.teamId == teamId) = some ts0 ∧
      bidAmount ≤ ts0.remainingBudget := by
  unfold validateBid at h
  split at h
  · simp [ValidationResult.isValid] at h
  · next ts0 hf =>
      refine ⟨ts0, hf, ?_⟩
      dsimp only at h
      split at h
      · simp [ValidationResult.isValid] at h
      · exact validatePlayerAcquisition_isValid_budget _ _ _ _ _ h

/-- Selling preserves the list of team ids. -/
lemma updateTeamsAfterSale_teamIds (teams : List TeamState)
    (winningTeamId playerId : String) (purchasePrice : ℚ) :
    (updateTeamsAfterSale teams winningTeamId playerId purchasePrice).map
        TeamState.teamId
      = teams.map TeamState.teamId := by
  unfold updateTeamsAfterSale
  rw [List.map_map]
  apply List.map_congr_left
  intro t ht
  by_cases hid : t.teamId = winningTeamId
  · simp [hid, finalizePlayerPurchase]
  · simp [hid]

/-- Selling keeps all budgets non-negative when every team matching the
winning id can afford the price. -/
lemma updateTeamsAfterSale_budgets (teams : List TeamState)
    (winningTeamId playerId : String) (purchasePrice : ℚ)
    (h0 : BudgetsNonneg teams)
    (haff : ∀ ts ∈ teams, ts.teamId = winningTeamId →
      purchasePrice ≤ ts.remainingBudget) :
    BudgetsNonneg (updateTeamsAfterSale teams winningTeamId playerId purchasePrice) := by
  intro ts hts
  unfold updateTeamsAfterSale at hts
  rcases List.mem_map.mp hts with ⟨t, ht, rfl⟩
  by_cases hid : t.teamId = winningTeamId
  · have haf := haff t ht hid
    have h0t := h0 t ht
    simp only [hid, beq_self_eq_true, if_true, finalizePlayerPurchase]
    linarith
  · have hid2 : (t.teamId == winningTeamId) = false := by
      simpa using hid
    simp only [hid2, Bool.false_eq_true, if_false]
    exact h0 t ht

/-- Every valid dispatch preserves the inductive invariant. -/
lemma auctionInvariant_step (allPlayers : List Player) (s : AuctionState)
    (a : AuctionAction) (hinv : AuctionInvariant s)
    (hv : ValidDispatch allPlayers s a) :
    AuctionInvariant (auctionReducer s a) := by
  obtain ⟨hb, hnd, haff⟩ := hinv
  cases a with
  | startBidding p =>
      cases s with
      | idle st => exact ⟨hb, hnd, trivial⟩
      | bidding st => exact ⟨hb, hnd, haff⟩
      | sold st => exact ⟨hb, hnd, haff⟩
      | unsold st => exact ⟨hb, hnd, haff⟩
      | completed st => exact ⟨hb, hnd, haff⟩
  | placeBid tid amt =>
      cases s with
      | bidding st =>
          obtain ⟨ts0, hf, hle⟩ := validateBid_isValid_spec st tid amt allPlayers hv
          refine ⟨hb, hnd, ?_⟩
          intro ts hts htid
          have heq := find_teamId_unique tid st.teams hnd ts0 hf ts hts htid
          rw [heq]
          exact hle
      | idle st => exact ⟨hb, hnd, haff⟩
      | sold st => exact ⟨hb, hnd, haff⟩
      | unsold st => exact ⟨hb, hnd, haff⟩
      | completed st => exact ⟨hb, hnd, haff⟩
  | invalidBid r =>
      cases s with
      | bidding st => exact ⟨hb, hnd, haff⟩
      | idle st => exact ⟨hb, hnd, haff⟩
      | sold st => exact ⟨hb, hnd, haff⟩
      | unsold st => exact ⟨hb, hnd, haff⟩
      | completed st => exact ⟨hb, hnd, haff⟩
  | timerTick =>
      cases s with
      | bidding st =>
          rcases st with ⟨cp, cb, tr, cpl, tms, msg⟩
          have heq : auctionReducer (.bidding ⟨cp, cb, tr, cpl, tms, msg⟩) .timerTick
              = if tr - 1 ≤ 0 then .bidding ⟨cp, cb, 0, cpl, tms, msg⟩
                else .bidding ⟨cp, cb, tr - 1, cpl, tms, msg⟩ := rfl
          rw [heq]
          split
          · exact ⟨hb, hnd, haff⟩
          · exact ⟨hb, hnd, haff⟩
      | idle st => exact ⟨hb, hnd, haff⟩
      | sold st => exact ⟨hb, hnd, haff⟩
      | unsold st => exact ⟨hb, hnd, haff⟩
      | completed st => exact ⟨hb, hnd, haff⟩
  | timeExpired =>
      cases s with
      | bidding st =>
          rcases st with ⟨cp, cb, tr, cpl, tms, msg⟩
          cases cb with
          | none => exact ⟨hb, hnd, trivial⟩
          | some cb =>
              refine ⟨?_, ?_, trivial⟩
              · exact updateTeamsAfterSale_budgets tms cb.teamId cp.id cb.amount hb haff
              · rw [show (AuctionState.teams (auctionReducer
                    (.bidding ⟨cp, some cb, tr, cpl, tms, msg⟩) .timeExpired))
                    = updateTeamsAfterSale tms cb.teamId cp.id cb.amount from rfl,
                  updateTeamsAfterSale_teamIds]
                exact hnd
      | idle st => exact ⟨hb, hnd, haff⟩
      | sold st => exact ⟨hb, hnd, haff⟩
      | unsold st => exact ⟨hb, hnd, haff⟩
      | completed st => exact ⟨hb, hnd, haff⟩
  | playerSold =>
      cases s with
      | bidding st =>
          rcases st with ⟨cp, cb, tr, cpl, tms, msg⟩
          cases cb with
          | none => exact ⟨hb, hnd, haff⟩
          | some cb =>
              refine ⟨?_, ?_, trivial⟩
              · exact updateTeamsAfterSale_budgets tms cb.teamId cp.id cb.amount hb haff
              · rw [show (AuctionState.teams (auctionReducer
                    (.bidding ⟨cp, some cb, tr, cpl, tms, msg⟩) .playerSold))
                    = updateTeamsAfterSale tms cb.teamId cp.id cb.amount from rfl,
                  updateTeamsAfterSale_teamIds]
                exact hnd
      | idle st => exact ⟨hb, hnd, haff⟩
      | sold st => exact ⟨hb, hnd, haff⟩
      | unsold st => exact ⟨hb, hnd, haff⟩
      | completed st => exact ⟨hb, hnd, haff⟩
  | playerUnsold =>
      cases s with
      | bidding st => exact ⟨hb, hnd, trivial⟩
      | idle st => exact ⟨hb, hnd, haff⟩
      | sold st => exact ⟨hb, hnd, haff⟩
      | unsold st => exact ⟨hb, hnd, haff⟩
      | completed st => exact ⟨hb, hnd, haff⟩
  | resetToIdle => exact ⟨hb, hnd, trivial⟩

/-- C1: starting from the initial state (every team at its full positive
budget, empty squads, empty history, distinct team ids), any sequence of
dispatched events in which every `PLACE_BID` was first accepted by
`validateBid` keeps every team's remaining budget non-negative. -/
theorem budget_invariant_reachable (allPlayers : List Player) (teams : List Team)
    (hpos : ∀ t ∈ teams, 0 ≤ t.budget)
    (hids : (teams.map Team.id).Nodup)
    (s : AuctionState)
    (hr : Reachable allPlayers (createInitialState teams) s) :
    ∀ ts ∈ s.teams, 0 ≤ ts.remainingBudget := by
  suffices hinv : AuctionInvariant s from hinv.1
  induction hr with
  | refl =>
      refine ⟨?_, ?_, trivial⟩
      · intro ts hts
        simp only [createInitialState, AuctionState.teams] at hts
        rcases List.mem_map.mp hts with ⟨t, ht, rfl⟩
        exact hpos t ht
      · simp only [createInitialState, AuctionState.teams, List.map_map]
        simpa [Function.comp] using hids
  | step s' a hs' hv ih => exact auctionInvariant_step allPlayers s' a ih hv

/-- C1 witness: with one team (budget 100) and one player, the state after
START_BIDDING, an accepted PLACE_BID of 50 and TIME_EXPIRED is reachable,
and the winning team's budget is still non-negative. -/
theorem budget_invariant_reachable_witness :
    (0 : ℚ) ≤ (finalizePlayerPurchase ⟨"t1", 100, []⟩ "p1" 50).remainingBudget := by
  have hv2 : (validateBid
      ⟨exPlayer, none, INITIAL_BID_TIME, [],
        [⟨"t1", (100 : ℚ), []⟩],
        some ("Bidding started for " ++ exPlayer.name)⟩
      "t1" 50 [exPlayer]).isValid = true := by decide
  have r1 : Reachable [exPlayer]
      (createInitialState [⟨"t1", "Team One", "T1", 100, "red"⟩])
      (auctionReducer (createInitialState [⟨"t1", "Team One", "T1", 100, "red"⟩])
        (.startBidding exPlayer)) :=
    Reachable.step _ _ Reachable.refl trivial
  have r2 := Reachable.step _ (.placeBid "t1" 50) r1 hv2
  have r3 := Reachable.step _ .timeExpired r2 trivial
  have h := budget_invariant_reachable [exPlayer]
    [⟨"t1", "Team One", "T1", 100, "red"⟩]
    (by decide) (by decide) _ r3
  apply h
  show _ ∈ AuctionState.teams _
  exact List.mem_singleton.mpr rfl
